import Mathlib

/-!
Verification development for the intel-extension-for-pytorch CPU kernels:
pixel shuffle / pixel unshuffle (packed and channels-last layouts, forward
and backward), 2-d average pooling (forward, backward, argument checking),
and the convolution+elu fusion guard of the graph rewriter.

Tensors are modelled shallowly: a logical shape, a memory-format tag, an
element-type tag, and the physical flat buffer as a total function
`Nat → ℚ`.  Element values are exact rationals, so the arithmetic facts
below are about the kernels' exact summation/division structure; machine
floating-point rounding is outside the model.  Index arithmetic transcribes
`at::native::data_index_init`/`data_index_step`, which decompose a flat
offset by iterated division and remainder from the fastest-varying extent
to the slowest.
-/

namespace Ipex

/-- Physical memory layout tag of a tensor (`at::MemoryFormat`). -/
inductive MemoryFormat
  | Contiguous
  | ChannelsLast
  | ChannelsLast3d
  deriving DecidableEq

/-- Element-type tag of a tensor (`at::ScalarType`). -/
inductive ScalarType
  | Float
  | Double
  | BFloat16
  | Half
  | Long
  | Char
  deriving DecidableEq

/-- Dense tensor: logical shape, layout tag, element kind, and the physical
flat buffer (indexed by linear offset in the tensor's physical layout). -/
structure Tensor where
  shape : List Nat
  memFmt : MemoryFormat
  dtype : ScalarType
  data : Nat → ℚ

/-- Number of elements (`Tensor::numel`). -/
def Tensor.numel (t : Tensor) : Nat := t.shape.prod

/-- `t.size(-k)`: the k-th dimension size counted from the end. -/
def sizeNeg (sh : List Nat) (k : Nat) : Nat := sh.reverse.getD (k - 1) 0

/-- Element types accepted by `AT_DISPATCH_FLOATING_TYPES` (Double, Float). -/
def isFloatingDispatch (st : ScalarType) : Bool :=
  match st with
  | ScalarType.Float => true
  | ScalarType.Double => true
  | _ => false

/-- Element types accepted by
`AT_DISPATCH_FLOATING_TYPES_AND2(Long, BFloat16, ...)` used by the pooling
kernels. -/
def isPoolDispatch (st : ScalarType) : Bool :=
  match st with
  | ScalarType.Float => true
  | ScalarType.Double => true
  | ScalarType.Long => true
  | ScalarType.BFloat16 => true
  | _ => false

/-!
## Pixel shuffle kernels

Each kernel writes `output[i] = input[offset(i)]` where `i` enumerates the
output index space in the order given to `data_index_init`, and `offset`
is the strided input offset from the source.  The model expresses this as
the value of the output buffer at flat index `i`.
-/

/-- `cpu_pixel_shuffle` (packed layout): output enumerated as
`[n, c, h, s1, w, s2]`, input read with block-structured strides
`[n, c, s1, s2, h, w]`. -/
def cpu_pixel_shuffle (nbatch channels height width S : Nat)
    (input : Nat → ℚ) : Nat → ℚ :=
  fun i =>
    let sub_channels := channels / (S * S)
    let stride_n := channels * height * width
    let stride_c := S * S * height * width
    let stride_s1 := S * height * width
    let stride_s2 := height * width
    let stride_h := width
    let s2 := i % S
    let w := i / S % width
    let s1 := i / S / width % S
    let h := i / S / width / S % height
    let c := i / S / width / S / height % sub_channels
    let n := i / S / width / S / height / sub_channels % nbatch
    input (n * stride_n + c * stride_c + s1 * stride_s1 + s2 * stride_s2 +
      h * stride_h + w)

/-- `cpu_pixel_shuffle_channels_last`: output enumerated as
`[n, h, s1, w, s2, c]`, input read with strides of shape
`[n, h, w, c, s1, s2]`. -/
def cpu_pixel_shuffle_channels_last (nbatch channels height width S : Nat)
    (input : Nat → ℚ) : Nat → ℚ :=
  fun i =>
    let sub_channels := channels / (S * S)
    let stride_n := height * width * channels
    let stride_h := width * channels
    let stride_w := channels
    let stride_c := S * S
    let stride_s1 := S
    let c := i % sub_channels
    let s2 := i / sub_channels % S
    let w := i / sub_channels / S % width
    let s1 := i / sub_channels / S / width % S
    let h := i / sub_channels / S / width / S % height
    let n := i / sub_channels / S / width / S / height % nbatch
    input (n * stride_n + h * stride_h + w * stride_w + c * stride_c +
      s1 * stride_s1 + s2)

/-- `cpu_pixel_shuffle_backward` (packed layout): grad-input enumerated as
`[n, c, s1, s2, h, w]`, grad-output read with strides of shape
`[n, c, h, s1, w, s2]`.  The dimension arguments are those of the
grad-input tensor. -/
def cpu_pixel_shuffle_backward (nbatch channels height width S : Nat)
    (grad_output : Nat → ℚ) : Nat → ℚ :=
  fun i =>
    let sub_channels := channels / (S * S)
    let stride_n := channels * height * width
    let stride_c := height * S * width * S
    let stride_h := S * width * S
    let stride_s1 := width * S
    let stride_w := S
    let w := i % width
    let h := i / width % height
    let s2 := i / width / height % S
    let s1 := i / width / height / S % S
    let c := i / width / height / S / S % sub_channels
    let n := i / width / height / S / S / sub_channels % nbatch
    grad_output (n * stride_n + c * stride_c + h * stride_h +
      s1 * stride_s1 + w * stride_w + s2)

/-- `cpu_pixel_shuffle_backward_channels_last`: grad-input enumerated as
`[n, h, w, c, s1, s2]`, grad-output read with strides of shape
`[n, h, s1, w, s2, c]`.  The dimension arguments are those of the
grad-input tensor. -/
def cpu_pixel_shuffle_backward_channels_last
    (nbatch channels height width S : Nat) (grad_output : Nat → ℚ) :
    Nat → ℚ :=
  fun i =>
    let sub_channels := channels / (S * S)
    let stride_n := height * width * channels
    let stride_h := S * width * S * sub_channels
    let stride_s1 := width * S * sub_channels
    let stride_w := S * sub_channels
    let stride_s2 := sub_channels
    let s2 := i % S
    let s1 := i / S % S
    let c := i / S / S % sub_channels
    let w := i / S / S / sub_channels % width
    let h := i / S / S / sub_channels / width % height
    let n := i / S / S / sub_channels / width / height % nbatch
    grad_output (n * stride_n + h * stride_h + s1 * stride_s1 +
      w * stride_w + s2 * stride_s2 + c)

/-- Tensor-level wrapper of `cpu_pixel_shuffle`: dimensions come from the
input (source) tensor, with all leading dimensions flattened into the
batch. -/
def cpu_pixel_shuffle_t (dst src : Tensor) (S : Nat) : Nat → ℚ :=
  let channels := sizeNeg src.shape 3
  let height := sizeNeg src.shape 2
  let width := sizeNeg src.shape 1
  let nbatch := src.numel / (channels * height * width)
  cpu_pixel_shuffle nbatch channels height width S src.data

/-- Tensor-level wrapper of `cpu_pixel_shuffle_backward`: dimensions come
from the grad-input (destination) tensor. -/
def cpu_pixel_shuffle_backward_t (dst src : Tensor) (S : Nat) : Nat → ℚ :=
  let channels := sizeNeg dst.shape 3
  let height := sizeNeg dst.shape 2
  let width := sizeNeg dst.shape 1
  let nbatch := dst.numel / (channels * height * width)
  cpu_pixel_shuffle_backward nbatch channels height width S src.data

/-- Tensor-level wrapper of `cpu_pixel_shuffle_channels_last`; the source
checks the input has exactly 4 dimensions. -/
def cpu_pixel_shuffle_channels_last_t (dst src : Tensor) (S : Nat) :
    Option (Nat → ℚ) :=
  if src.shape.length = 4 then
    some (cpu_pixel_shuffle_channels_last (src.shape.getD 0 0)
      (src.shape.getD 1 0) (src.shape.getD 2 0) (src.shape.getD 3 0) S
      src.data)
  else none

/-- Tensor-level wrapper of `cpu_pixel_shuffle_backward_channels_last`;
the source checks the grad-output (source) has exactly 4 dimensions, and
reads dimensions from the grad-input (destination). -/
def cpu_pixel_shuffle_backward_channels_last_t (dst src : Tensor)
    (S : Nat) : Option (Nat → ℚ) :=
  if src.shape.length = 4 then
    some (cpu_pixel_shuffle_backward_channels_last (dst.shape.getD 0 0)
      (dst.shape.getD 1 0) (dst.shape.getD 2 0) (dst.shape.getD 3 0) S
      src.data)
  else none

/-- `pixel_shuffle_kernel`: dispatch on the source tensor's memory format
and (via `AT_DISPATCH_FLOATING_TYPES`) element type.  `none` models a
thrown error. -/
def pixel_shuffle_kernel (dst src : Tensor) (S : Nat) :
    Option (Nat → ℚ) :=
  match src.memFmt with
  | MemoryFormat.Contiguous =>
      if isFloatingDispatch src.dtype then
        some (cpu_pixel_shuffle_t dst src S)
      else none
  | MemoryFormat.ChannelsLast =>
      if isFloatingDispatch src.dtype then
        cpu_pixel_shuffle_channels_last_t dst src S
      else none
  | _ => none

/-- `pixel_shuffle_backward_kernel`. -/
def pixel_shuffle_backward_kernel (dst src : Tensor) (S : Nat) :
    Option (Nat → ℚ) :=
  match src.memFmt with
  | MemoryFormat.Contiguous =>
      if isFloatingDispatch src.dtype then
        some (cpu_pixel_shuffle_backward_t dst src S)
      else none
  | MemoryFormat.ChannelsLast =>
      if isFloatingDispatch src.dtype then
        cpu_pixel_shuffle_backward_channels_last_t dst src S
      else none
  | _ => none

/-- `pixel_unshuffle_kernel`: the unshuffle forward dispatch reuses the
shuffle backward kernel bodies. -/
def pixel_unshuffle_kernel (dst src : Tensor) (S : Nat) :
    Option (Nat → ℚ) :=
  match src.memFmt with
  | MemoryFormat.Contiguous =>
      if isFloatingDispatch src.dtype then
        some (cpu_pixel_shuffle_backward_t dst src S)
      else none
  | MemoryFormat.ChannelsLast =>
      if isFloatingDispatch src.dtype then
        cpu_pixel_shuffle_backward_channels_last_t dst src S
      else none
  | _ => none

/-- `pixel_unshuffle_backward_kernel`: the unshuffle backward dispatch
reuses the shuffle forward kernel bodies. -/
def pixel_unshuffle_backward_kernel (dst src : Tensor) (S : Nat) :
    Option (Nat → ℚ) :=
  match src.memFmt with
  | MemoryFormat.Contiguous =>
      if isFloatingDispatch src.dtype then
        some (cpu_pixel_shuffle_t dst src S)
      else none
  | MemoryFormat.ChannelsLast =>
      if isFloatingDispatch src.dtype then
        cpu_pixel_shuffle_channels_last_t dst src S
      else none
  | _ => none

/-- Output sizes of `pixel_shuffle_cpu`:
leading dims ++ `[C / S / S, H * S, W * S]`. -/
def pixel_shuffle_out_sizes (sh : List Nat) (S : Nat) : List Nat :=
  sh.take (sh.length - 3) ++
    [sizeNeg sh 3 / S / S, sizeNeg sh 2 * S, sizeNeg sh 1 * S]

/-- Output sizes of `pixel_unshuffle_cpu`:
leading dims ++ `[C * S * S, H / S, W / S]`. -/
def pixel_unshuffle_out_sizes (sh : List Nat) (S : Nat) : List Nat :=
  sh.take (sh.length - 3) ++
    [sizeNeg sh 3 * S * S, sizeNeg sh 2 / S, sizeNeg sh 1 / S]

/-- `pixel_shuffle_cpu`: allocate the output (same memory format and
dtype), run the kernel. -/
def pixel_shuffle_cpu (self : Tensor) (S : Nat) : Option Tensor :=
  let outShape := pixel_shuffle_out_sizes self.shape S
  match pixel_shuffle_kernel
      (Tensor.mk outShape self.memFmt self.dtype (fun _ => 0)) self S with
  | some d => some (Tensor.mk outShape self.memFmt self.dtype d)
  | none => none

/-- `pixel_unshuffle_cpu`. -/
def pixel_unshuffle_cpu (self : Tensor) (S : Nat) : Option Tensor :=
  let outShape := pixel_unshuffle_out_sizes self.shape S
  match pixel_unshuffle_kernel
      (Tensor.mk outShape self.memFmt self.dtype (fun _ => 0)) self S with
  | some d => some (Tensor.mk outShape self.memFmt self.dtype d)
  | none => none

/-- `pixel_shuffle_backward_cpu`: grad-input gets the saved input sizes. -/
def pixel_shuffle_backward_cpu (grad_output : Tensor)
    (input_sizes : List Nat) (S : Nat) : Option Tensor :=
  match pixel_shuffle_backward_kernel
      (Tensor.mk input_sizes grad_output.memFmt grad_output.dtype
        (fun _ => 0)) grad_output S with
  | some d => some (Tensor.mk input_sizes grad_output.memFmt
      grad_output.dtype d)
  | none => none

/-- `pixel_unshuffle_backward_cpu`. -/
def pixel_unshuffle_backward_cpu (grad_output : Tensor)
    (input_sizes : List Nat) (S : Nat) : Option Tensor :=
  match pixel_unshuffle_backward_kernel
      (Tensor.mk input_sizes grad_output.memFmt grad_output.dtype
        (fun _ => 0)) grad_output S with
  | some d => some (Tensor.mk input_sizes grad_output.memFmt
      grad_output.dtype d)
  | none => none

/-!
## Average pooling

The five pooling kernels share the same window/divisor computation, which
the source repeats verbatim; it is defined once here.  `oh * dH - padH`
can be negative, so window bounds live in `Int`.
-/

/-- Pooling configuration passed down to the kernels. -/
structure PoolCfg where
  kW : Int
  kH : Int
  dW : Int
  dH : Int
  padW : Int
  padH : Int
  count_include_pad : Bool
  divisor_override : Option Int

/-- Raw window start row: `oh * dH - padH`. -/
def ih0 (cfg : PoolCfg) (oh : Nat) : Int := oh * cfg.dH - cfg.padH

/-- Raw window start column: `ow * dW - padW`. -/
def iw0 (cfg : PoolCfg) (ow : Nat) : Int := ow * cfg.dW - cfg.padW

/-- Window end row before clamping: `min (ih0 + kH) (IH + padH)`. -/
def ih1 (cfg : PoolCfg) (IH : Nat) (oh : Nat) : Int :=
  min (ih0 cfg oh + cfg.kH) ((IH : Int) + cfg.padH)

/-- Window end column before clamping: `min (iw0 + kW) (IW + padW)`. -/
def iw1 (cfg : PoolCfg) (IW : Nat) (ow : Nat) : Int :=
  min (iw0 cfg ow + cfg.kW) ((IW : Int) + cfg.padW)

/-- `pool_size`, the padding-including divisor. -/
def poolSize (cfg : PoolCfg) (IH IW : Nat) (oh ow : Nat) : Int :=
  (ih1 cfg IH oh - ih0 cfg oh) * (iw1 cfg IW ow - iw0 cfg ow)

/-- Clamped window start row: `max ih0 0`. -/
def ih0c (cfg : PoolCfg) (oh : Nat) : Int := max (ih0 cfg oh) 0

/-- Clamped window start column. -/
def iw0c (cfg : PoolCfg) (ow : Nat) : Int := max (iw0 cfg ow) 0

/-- Clamped window end row: `min ih1 IH`. -/
def ih1c (cfg : PoolCfg) (IH : Nat) (oh : Nat) : Int :=
  min (ih1 cfg IH oh) (IH : Int)

/-- Clamped window end column. -/
def iw1c (cfg : PoolCfg) (IW : Nat) (ow : Nat) : Int :=
  min (iw1 cfg IW ow) (IW : Int)

/-- `divide_factor`: explicit override if present, else `pool_size` when
counting padding, else the clamped in-bounds count. -/
def divideFactor (cfg : PoolCfg) (IH IW : Nat) (oh ow : Nat) : Int :=
  match cfg.divisor_override with
  | some d => d
  | none =>
      if cfg.count_include_pad then poolSize cfg IH IW oh ow
      else (ih1c cfg IH oh - ih0c cfg oh) * (iw1c cfg IW ow - iw0c cfg ow)

/-- Sum of `read ih iw` over the clamped window. -/
def windowSum (cfg : PoolCfg) (IH IW : Nat) (oh ow : Nat)
    (read : Int → Int → ℚ) : ℚ :=
  ∑ ih ∈ Finset.Ico (ih0c cfg oh) (ih1c cfg IH oh),
    ∑ iw ∈ Finset.Ico (iw0c cfg ow) (iw1c cfg IW ow), read ih iw

/-- `cpu_avg_pool` (packed layout): output enumerated as `[c, oh, ow]`
with batch and channels flattened; an empty clamped window leaves the
zero-initialised output element; otherwise sum over the window then divide
once. -/
def cpu_avg_pool (channels IH IW OH OW : Nat) (cfg : PoolCfg)
    (input : Nat → ℚ) : Nat → ℚ :=
  fun i =>
    let ow := i % OW
    let oh := i / OW % OH
    let c := i / OW / OH % channels
    if ih1c cfg IH oh ≤ ih0c cfg oh ∨ iw1c cfg IW ow ≤ iw0c cfg ow then 0
    else
      windowSum cfg IH IW oh ow
        (fun ih iw => input (c * (IH * IW) + ih.toNat * IW + iw.toNat)) /
      (divideFactor cfg IH IW oh ow : ℚ)

/-- `cpu_avg_pool_channels_last`: output position `p = j * C + d` where
`j` enumerates `[n, oh, ow]` and `d` is the channel lane; the out lane is
zeroed first, so an empty window yields zero. -/
def cpu_avg_pool_channels_last (nbatch channels IH IW OH OW : Nat)
    (cfg : PoolCfg) (input : Nat → ℚ) : Nat → ℚ :=
  fun p =>
    let d := p % channels
    let j := p / channels
    let ow := j % OW
    let oh := j / OW % OH
    let n := j / OW / OH % nbatch
    if ih1c cfg IH oh ≤ ih0c cfg oh ∨ iw1c cfg IW ow ≤ iw0c cfg ow then 0
    else
      windowSum cfg IH IW oh ow
        (fun ih iw => input (n * (IH * IW * channels) +
          ih.toNat * (IW * channels) + iw.toNat * channels + d)) /
      (divideFactor cfg IH IW oh ow : ℚ)

/-- `cpu_avg_pool_channels_last<at::BFloat16>`: same three-pass structure
with a widened float accumulation buffer; on an empty window the output
lane is explicitly zeroed.  In this exact-rational model the widened
accumulation introduces no rounding, so the value agrees with the generic
channels-last kernel.  Kept as its own definition because it is a separate
template specialization in the source. -/
def cpu_avg_pool_channels_last_bf16 (nbatch channels IH IW OH OW : Nat)
    (cfg : PoolCfg) (input : Nat → ℚ) : Nat → ℚ :=
  fun p =>
    let d := p % channels
    let j := p / channels
    let ow := j % OW
    let oh := j / OW % OH
    let n := j / OW / OH % nbatch
    if ih1c cfg IH oh ≤ ih0c cfg oh ∨ iw1c cfg IW ow ≤ iw0c cfg ow then 0
    else
      windowSum cfg IH IW oh ow
        (fun ih iw => input (n * (IH * IW * channels) +
          ih.toNat * (IW * channels) + iw.toNat * channels + d)) /
      (divideFactor cfg IH IW oh ow : ℚ)

/-- Does the clamped window of output coordinate `(oh, ow)` contain the
input spatial coordinate `(ih, iw)`? -/
def windowContains (cfg : PoolCfg) (IH IW : Nat) (oh ow ih iw : Nat) :
    Prop :=
  ih0c cfg oh ≤ (ih : Int) ∧ (ih : Int) < ih1c cfg IH oh ∧
  iw0c cfg ow ≤ (iw : Int) ∧ (iw : Int) < iw1c cfg IW ow

instance (cfg : PoolCfg) (IH IW : Nat) (oh ow ih iw : Nat) :
    Decidable (windowContains cfg IH IW oh ow ih iw) := by
  unfold windowContains; infer_instance

/-- Does the backward scatter for output window `(c, oh, ow)` write flat
grad-input position `p`?  `p` decomposes as `[c, ih, iw]` over
`[channels, IH, IW]`; it is written iff its channel matches and its
spatial coordinate lies in the clamped window. -/
def inBwWindow (cfg : PoolCfg) (IH IW : Nat) (t : Nat × Nat × Nat)
    (p : Nat) : Prop :=
  p / (IH * IW) = t.1 ∧
  windowContains cfg IH IW t.2.1 t.2.2 (p % (IH * IW) / IW)
    (p % (IH * IW) % IW)

instance (cfg : PoolCfg) (IH IW : Nat) (t : Nat × Nat × Nat) (p : Nat) :
    Decidable (inBwWindow cfg IH IW t p) := by
  unfold inBwWindow; infer_instance

/-- `grad_delta` for output window `(c, oh, ow)`:
`grad_output[c][oh][ow] / divide_factor`. -/
def bwDelta (cfg : PoolCfg) (IH IW OH OW : Nat) (gout : Nat → ℚ)
    (t : Nat × Nat × Nat) : ℚ :=
  gout (t.1 * (OH * OW) + t.2.1 * OW + t.2.2) /
    (divideFactor cfg IH IW t.2.1 t.2.2 : ℚ)

/-- One scatter-add step of the packed backward kernel: add `grad_delta`
at every grad-input position in the window of `(c, oh, ow)`. -/
def bwStep (cfg : PoolCfg) (IH IW OH OW : Nat) (gout : Nat → ℚ)
    (g : Nat → ℚ) (t : Nat × Nat × Nat) : Nat → ℚ :=
  fun p =>
    if inBwWindow cfg IH IW t p then g p + bwDelta cfg IH IW OH OW gout t
    else g p

/-- All `(c, oh, ow)` loop triples, in loop order. -/
def poolTriples (channels OH OW : Nat) : List (Nat × Nat × Nat) :=
  (List.range channels).flatMap fun c =>
    (List.range OH).flatMap fun oh =>
      (List.range OW).map fun ow => (c, oh, ow)

/-- `cpu_avg_pool_backward` (packed layout): scatter-add
`grad_output / divide_factor` over every output window into a
zero-initialised grad-input. -/
def cpu_avg_pool_backward (channels IH IW OH OW : Nat) (cfg : PoolCfg)
    (gout : Nat → ℚ) : Nat → ℚ :=
  (poolTriples channels OH OW).foldl (bwStep cfg IH IW OH OW gout)
    (fun _ => 0)

/-- Does the channels-last backward scatter for `(n, oh, ow)` write flat
grad-input position `p`?  `p` decomposes as `[n, ih, iw, d]` over
`[nbatch, IH, IW, channels]`. -/
def inBwWindowCL (cfg : PoolCfg) (IH IW channels : Nat)
    (t : Nat × Nat × Nat) (p : Nat) : Prop :=
  p / (IH * IW * channels) = t.1 ∧
  windowContains cfg IH IW t.2.1 t.2.2
    (p % (IH * IW * channels) / (IW * channels))
    (p % (IW * channels) / channels)

instance (cfg : PoolCfg) (IH IW channels : Nat) (t : Nat × Nat × Nat)
    (p : Nat) : Decidable (inBwWindowCL cfg IH IW channels t p) := by
  unfold inBwWindowCL; infer_instance

/-- Channel-lane delta for the channels-last backward kernel at position
`p` in batch `n` and output coordinate `(oh, ow)`. -/
def bwDeltaCL (cfg : PoolCfg) (IH IW OH OW channels : Nat)
    (gout : Nat → ℚ) (t : Nat × Nat × Nat) (p : Nat) : ℚ :=
  gout (t.1 * (OH * OW * channels) + t.2.1 * (OW * channels) +
      t.2.2 * channels + p % channels) /
    (divideFactor cfg IH IW t.2.1 t.2.2 : ℚ)

/-- One scatter-add step of the channels-last backward kernel. -/
def bwStepCL (cfg : PoolCfg) (IH IW OH OW channels : Nat)
    (gout : Nat → ℚ) (g : Nat → ℚ) (t : Nat × Nat × Nat) : Nat → ℚ :=
  fun p =>
    if inBwWindowCL cfg IH IW channels t p then
      g p + bwDeltaCL cfg IH IW OH OW channels gout t p
    else g p

/-- `cpu_avg_pool_backward_channels_last`. -/
def cpu_avg_pool_backward_channels_last
    (nbatch channels IH IW OH OW : Nat) (cfg : PoolCfg)
    (gout : Nat → ℚ) : Nat → ℚ :=
  (poolTriples nbatch OH OW).foldl
    (bwStepCL cfg IH IW OH OW channels gout) (fun _ => 0)

/-- Tensor-level wrapper of `cpu_avg_pool`: channels flatten batch and
channel dims of the input; spatial dims come from input (last two) and
output (last two). -/
def cpu_avg_pool_t (dst src : Tensor) (cfg : PoolCfg) : Nat → ℚ :=
  let channels :=
    if src.shape.length = 3 then src.shape.getD 0 0
    else src.shape.getD 0 0 * src.shape.getD 1 0
  cpu_avg_pool channels (sizeNeg src.shape 2) (sizeNeg src.shape 1)
    (sizeNeg dst.shape 2) (sizeNeg dst.shape 1) cfg src.data

/-- Tensor-level wrapper of `cpu_avg_pool_channels_last`; the source
checks the input has exactly 4 dimensions. -/
def cpu_avg_pool_channels_last_t (dst src : Tensor) (cfg : PoolCfg) :
    Option (Nat → ℚ) :=
  if src.shape.length = 4 then
    some (cpu_avg_pool_channels_last (src.shape.getD 0 0)
      (src.shape.getD 1 0) (src.shape.getD 2 0) (src.shape.getD 3 0)
      (dst.shape.getD 2 0) (dst.shape.getD 3 0) cfg src.data)
  else none

/-- Tensor-level wrapper of the BFloat16 channels-last specialization. -/
def cpu_avg_pool_channels_last_bf16_t (dst src : Tensor)
    (cfg : PoolCfg) : Option (Nat → ℚ) :=
  if src.shape.length = 4 then
    some (cpu_avg_pool_channels_last_bf16 (src.shape.getD 0 0)
      (src.shape.getD 1 0) (src.shape.getD 2 0) (src.shape.getD 3 0)
      (dst.shape.getD 2 0) (dst.shape.getD 3 0) cfg src.data)
  else none

/-- Tensor-level wrapper of `cpu_avg_pool_backward`: channels flatten the
leading dims of grad-output; input spatial sizes from grad-input,
output spatial sizes from grad-output. -/
def cpu_avg_pool_backward_t (dst src : Tensor) (cfg : PoolCfg) :
    Nat → ℚ :=
  let channels :=
    if src.shape.length = 3 then src.shape.getD 0 0
    else src.shape.getD 0 0 * src.shape.getD 1 0
  cpu_avg_pool_backward channels (sizeNeg dst.shape 2)
    (sizeNeg dst.shape 1) (sizeNeg src.shape 2) (sizeNeg src.shape 1) cfg
    src.data

/-- Tensor-level wrapper of `cpu_avg_pool_backward_channels_last`:
batch/channel/input-spatial sizes from grad-input, output spatial sizes
from grad-output. -/
def cpu_avg_pool_backward_channels_last_t (dst src : Tensor)
    (cfg : PoolCfg) : Nat → ℚ :=
  cpu_avg_pool_backward_channels_last (dst.shape.getD 0 0)
    (dst.shape.getD 1 0) (dst.shape.getD 2 0) (dst.shape.getD 3 0)
    (sizeNeg src.shape 2) (sizeNeg src.shape 1) cfg src.data

/-- `avg_pool2d_kernel_impl`: dispatch on the input's memory format and
(via `AT_DISPATCH_FLOATING_TYPES_AND2(Long, BFloat16)`) element type.
In the packed branch the BFloat16 case selects a float accumulator type,
which in this exact model coincides with the generic kernel. -/
def avg_pool2d_kernel_impl (output input : Tensor) (cfg : PoolCfg) :
    Option (Nat → ℚ) :=
  match input.memFmt with
  | MemoryFormat.Contiguous =>
      if isPoolDispatch input.dtype then
        some (cpu_avg_pool_t output input cfg)
      else none
  | MemoryFormat.ChannelsLast =>
      if isPoolDispatch input.dtype then
        if input.dtype = ScalarType.BFloat16 then
          cpu_avg_pool_channels_last_bf16_t output input cfg
        else cpu_avg_pool_channels_last_t output input cfg
      else none
  | _ => none

/-- `avg_pool2d_backward_kernel_impl`. -/
def avg_pool2d_backward_kernel_impl (grad_input grad_output : Tensor)
    (cfg : PoolCfg) : Option (Nat → ℚ) :=
  match grad_output.memFmt with
  | MemoryFormat.Contiguous =>
      if isPoolDispatch grad_output.dtype then
        some (cpu_avg_pool_backward_t grad_input grad_output cfg)
      else none
  | MemoryFormat.ChannelsLast =>
      if isPoolDispatch grad_output.dtype then
        some (cpu_avg_pool_backward_channels_last_t grad_input
          grad_output cfg)
      else none
  | _ => none

/-- Modelled from the spec: the standard floor/ceil pooling-output-shape
formula of the external helper `at::native::pooling_output_shape`
(floor division of the padded, dilated extent by the stride, plus one,
with the ceil-mode start-position correction). -/
def pooling_output_shape (inputSize kernelSize pad stride dilation : Int)
    (ceil_mode : Bool) : Int :=
  let outputSize :=
    Int.fdiv (inputSize + 2 * pad - dilation * (kernelSize - 1) - 1 +
      (if ceil_mode then stride - 1 else 0)) stride + 1
  if ceil_mode then
    if (outputSize - 1) * stride ≥ inputSize + pad then outputSize - 1
    else outputSize
  else outputSize

/-- Modelled from the spec: the external `at::native::pool2d_shape_check`
precondition — positive kernel and stride, non-negative padding of at most
half the kernel ("padding must not produce a fully out-of-bounds window"),
a 3- or 4-d input, and at least one output element. -/
def pool2d_shape_check (ndim : Nat) (kH kW dH dW padH padW : Int)
    (outputHeight outputWidth : Int) : Prop :=
  (ndim = 3 ∨ ndim = 4) ∧ 0 < kH ∧ 0 < kW ∧ 0 < dH ∧ 0 < dW ∧
  0 ≤ padH ∧ 0 ≤ padW ∧ 2 * padH ≤ kH ∧ 2 * padW ≤ kW ∧
  1 ≤ outputHeight ∧ 1 ≤ outputWidth

instance (ndim : Nat) (kH kW dH dW padH padW oH oW : Int) :
    Decidable (pool2d_shape_check ndim kH kW dH dW padH padW oH oW) := by
  unfold pool2d_shape_check; infer_instance

/-- Modelled from the spec: the external
`at::native::avg_pool2d_backward_shape_check` — the gradient tensor's
channel and spatial sizes must match the computed forward output sizes. -/
def avg_pool2d_backward_shape_check (goutShape : List Nat)
    (nInputPlane : Nat) (outputHeight outputWidth : Int) : Prop :=
  sizeNeg goutShape 3 = nInputPlane ∧
  (sizeNeg goutShape 2 : Int) = outputHeight ∧
  (sizeNeg goutShape 1 : Int) = outputWidth

instance (goutShape : List Nat) (nInputPlane : Nat) (oH oW : Int) :
    Decidable (avg_pool2d_backward_shape_check goutShape nInputPlane
      oH oW) := by
  unfold avg_pool2d_backward_shape_check; infer_instance

/-- The argument validation block of `avg_pool2d_out_cpu`: kernel size
must be a single value or a pair; stride may be omitted, a single value,
or a pair (omitted defaults to the kernel size, a single value applies to
both dimensions); padding must be a single value or a pair; an explicit
divisor override must be nonzero.  Returns
`(kH, kW, dH, dW, padH, padW)`, or `none` on a failed check. -/
def parsePoolArgs (kernel_size stride padding : List Int)
    (divisor_override : Option Int) :
    Option (Int × Int × Int × Int × Int × Int) :=
  if ¬(kernel_size.length = 1 ∨ kernel_size.length = 2) then none else
  let kH := kernel_size.getD 0 0
  let kW := if kernel_size.length = 1 then kH else kernel_size.getD 1 0
  if ¬(stride.length = 0 ∨ stride.length = 1 ∨ stride.length = 2)
  then none else
  let dH := if stride.length = 0 then kH else stride.getD 0 0
  let dW :=
    if stride.length = 0 then kW
    else if stride.length = 1 then dH else stride.getD 1 0
  if ¬(padding.length = 1 ∨ padding.length = 2) then none else
  let padH := padding.getD 0 0
  let padW := if padding.length = 1 then padH else padding.getD 1 0
  if divisor_override = some 0 then none else
  some (kH, kW, dH, dW, padH, padW)

/-- The argument validation block of `avg_pool2d_backward_out_cpu`,
repeated verbatim in the source (with a value-preserving downcast from
int64 to int). -/
def parsePoolArgsBackward (kernel_size stride padding : List Int)
    (divisor_override : Option Int) :
    Option (Int × Int × Int × Int × Int × Int) :=
  if ¬(kernel_size.length = 1 ∨ kernel_size.length = 2) then none else
  let kH := kernel_size.getD 0 0
  let kW := if kernel_size.length = 1 then kH else kernel_size.getD 1 0
  if ¬(stride.length = 0 ∨ stride.length = 1 ∨ stride.length = 2)
  then none else
  let dH := if stride.length = 0 then kH else stride.getD 0 0
  let dW :=
    if stride.length = 0 then kW
    else if stride.length = 1 then dH else stride.getD 1 0
  if ¬(padding.length = 1 ∨ padding.length = 2) then none else
  let padH := padding.getD 0 0
  let padW := if padding.length = 1 then padH else padding.getD 1 0
  if divisor_override = some 0 then none else
  some (kH, kW, dH, dW, padH, padW)

/-- `avg_pool2d_out_cpu`: validate kernel/stride/padding list lengths and
the explicit divisor, derive the per-dimension parameters,
compute the output shape, run the shape check, then dispatch the kernel.
`none` models a thrown error; no output tensor is produced on error. -/
def avg_pool2d_out_cpu (input : Tensor)
    (kernel_size stride padding : List Int)
    (ceil_mode count_include_pad : Bool)
    (divisor_override : Option Int) : Option Tensor :=
  match parsePoolArgs kernel_size stride padding divisor_override with
  | none => none
  | some (kH, kW, dH, dW, padH, padW) =>
  let nbatch : Int :=
    if input.shape.length = 4 then (sizeNeg input.shape 4 : Int) else 1
  let nInputPlane : Int := (sizeNeg input.shape 3 : Int)
  let inputHeight : Int := (sizeNeg input.shape 2 : Int)
  let inputWidth : Int := (sizeNeg input.shape 1 : Int)
  let outputHeight := pooling_output_shape inputHeight kH padH dH 1
    ceil_mode
  let outputWidth := pooling_output_shape inputWidth kW padW dW 1
    ceil_mode
  if ¬ pool2d_shape_check input.shape.length kH kW dH dW padH padW
      outputHeight outputWidth then none else
  let outShape : List Nat :=
    if input.shape.length = 3 then
      [nInputPlane.toNat, outputHeight.toNat, outputWidth.toNat]
    else
      [nbatch.toNat, nInputPlane.toNat, outputHeight.toNat,
        outputWidth.toNat]
  let cfg : PoolCfg :=
    PoolCfg.mk kW kH dW dH padW padH count_include_pad divisor_override
  match avg_pool2d_kernel_impl
      (Tensor.mk outShape input.memFmt input.dtype (fun _ => 0)) input
      cfg with
  | some d => some (Tensor.mk outShape input.memFmt input.dtype d)
  | none => none

/-- `avg_pool2d_backward_out_cpu`: the same argument validation as the
forward entry point, the backward shape and dtype checks, then the
backward kernel on a zero-initialised grad-input of the input's shape. -/
def avg_pool2d_backward_out_cpu (gradOutput input : Tensor)
    (kernel_size stride padding : List Int)
    (ceil_mode count_include_pad : Bool)
    (divisor_override : Option Int) : Option Tensor :=
  match parsePoolArgsBackward kernel_size stride padding
      divisor_override with
  | none => none
  | some (kH, kW, dH, dW, padH, padW) =>
  let nInputPlane : Int := (sizeNeg input.shape 3 : Int)
  let inputHeight : Int := (sizeNeg input.shape 2 : Int)
  let inputWidth : Int := (sizeNeg input.shape 1 : Int)
  let outputHeight := pooling_output_shape inputHeight kH padH dH 1
    ceil_mode
  let outputWidth := pooling_output_shape inputWidth kW padW dW 1
    ceil_mode
  if ¬ avg_pool2d_backward_shape_check gradOutput.shape
      nInputPlane.toNat outputHeight outputWidth then none else
  if ¬ (input.dtype = gradOutput.dtype) then none else
  let cfg : PoolCfg :=
    PoolCfg.mk kW kH dW dH padW padH count_include_pad divisor_override
  match avg_pool2d_backward_kernel_impl
      (Tensor.mk input.shape input.memFmt input.dtype (fun _ => 0))
      gradOutput cfg with
  | some d => some (Tensor.mk input.shape input.memFmt input.dtype d)
  | none => none

/-!
## Graph fusion rewriter: the conv2d+elu guard

The subgraph rewriter machinery itself is external (torch JIT); only the
guard lambda `filter_conv2d_elu` is code of this file's sources.
-/

/-- A matched constant binding (`c10::IValue`), restricted to the two
numeric kinds the guard inspects. -/
inductive IValue
  | d (x : ℚ)
  | i (n : Int)
  deriving DecidableEq

/-- `filter_conv2d_elu`: accept the match iff the bound `input_scale`
constant is the identity — `1.0` when a double, `1` when an int. -/
def filter_conv2d_elu (input_scale : IValue) : Bool :=
  match input_scale with
  | IValue.d x => x == 1
  | IValue.i n => n == 1

/-- Modelled from the spec: `IpexSubgraphRewriter::runOnGraph` with a
filter (external torch JIT machinery) applies the registered replacement
to a matched subgraph exactly when the guard predicate accepts the match,
and leaves the original subgraph untouched otherwise. -/
def runOnGraphWithFilter {α β : Type} (filter : α → Bool)
    (fused original : α → β) (m : α) : β :=
  if filter m then fused m else original m

/-!
## Helper lemmas: mixed-radix index arithmetic
-/

theorem enc_mod (k x X : Nat) (h : x < X) : (k * X + x) % X = x := by
  rw [Nat.mul_comm k X, Nat.mul_add_mod]
  exact Nat.mod_eq_of_lt h

theorem enc_div (k x X : Nat) (h : x < X) : (k * X + x) / X = k := by
  have hX : 0 < X := lt_of_le_of_lt (Nat.zero_le x) h
  rw [Nat.mul_comm, Nat.mul_add_div hX, Nat.div_eq_of_lt h, Nat.add_zero]

theorem pos_of_mul_pos_left (m n : Nat) (h : 0 < m * n) : 0 < m := by
  rcases Nat.eq_zero_or_pos m with h0 | h1
  · rw [h0, Nat.zero_mul] at h
    exact absurd h (lt_irrefl 0)
  · exact h1

theorem pos_of_mul_pos_right (m n : Nat) (h : 0 < m * n) : 0 < n := by
  rcases Nat.eq_zero_or_pos n with h0 | h1
  · rw [h0, Nat.mul_zero] at h
    exact absurd h (lt_irrefl 0)
  · exact h1

theorem exists_enc2 (A B i : Nat) (hi : i < A * B) :
    ∃ a b, a < A ∧ b < B ∧ i = a * B + b := by
  have h0 : 0 < A * B := lt_of_le_of_lt (Nat.zero_le i) hi
  have hB : 0 < B := pos_of_mul_pos_right _ _ h0
  refine ⟨i / B, i % B, ?_, Nat.mod_lt i hB, ?_⟩
  · exact (Nat.div_lt_iff_lt_mul hB).mpr hi
  · rw [Nat.mul_comm (i / B) B]
    exact (Nat.div_add_mod i B).symm

theorem exists_enc6 (A B C D E F i : Nat) (hi : i < A * B * C * D * E * F) :
    ∃ a b c d e f, a < A ∧ b < B ∧ c < C ∧ d < D ∧ e < E ∧ f < F ∧
      i = ((((a * B + b) * C + c) * D + d) * E + e) * F + f := by
  obtain ⟨q1, f, hq1, hf, he1⟩ := exists_enc2 (A * B * C * D * E) F i hi
  obtain ⟨q2, e, hq2, he, he2⟩ := exists_enc2 (A * B * C * D) E q1 hq1
  obtain ⟨q3, d, hq3, hd, he3⟩ := exists_enc2 (A * B * C) D q2 hq2
  obtain ⟨q4, c, hq4, hc, he4⟩ := exists_enc2 (A * B) C q3 hq3
  obtain ⟨a, b, ha, hb, he5⟩ := exists_enc2 A B q4 hq4
  exact ⟨a, b, c, d, e, f, ha, hb, hc, hd, he, hf, by
    rw [he1, he2, he3, he4, he5]⟩

/-!
## C3: the unshuffle kernels are the shuffle kernels with the roles
swapped
-/

/-- C3: for every gradient tensor and factor, the shuffle backward
dispatch computes exactly what the unshuffle forward dispatch computes,
and the unshuffle backward dispatch computes exactly what the shuffle
forward dispatch computes — in both layouts the same kernel bodies
(`cpu_pixel_shuffle` and `cpu_pixel_shuffle_backward` and their
channels-last counterparts) implement both roles. -/
theorem unshuffle_kernels_are_shuffle_kernels (dst src : Tensor)
    (S : Nat) :
    pixel_unshuffle_kernel dst src S = pixel_shuffle_backward_kernel dst src S ∧
    pixel_unshuffle_backward_kernel dst src S = pixel_shuffle_kernel dst src S :=
  ⟨rfl, rfl⟩

/-!
## C8: the conv2d+elu fusion guard
-/

/-- C8: the conv+elu guard accepts a matched `input_scale` constant
exactly when it is the identity (`1.0` as a double or `1` as an int), and
the filtered rewrite therefore replaces the matched subgraph exactly in
that case, leaving it untouched otherwise. -/
theorem conv_elu_guard_identity {β : Type} (s : IValue)
    (fused original : IValue → β) :
    (filter_conv2d_elu s = true ↔ (s = IValue.d 1 ∨ s = IValue.i 1)) ∧
    runOnGraphWithFilter filter_conv2d_elu fused original s =
      (if s = IValue.d 1 ∨ s = IValue.i 1 then fused s else original s) := by
  constructor
  · cases s with
    | d x => simp [filter_conv2d_elu]
    | i n => simp [filter_conv2d_elu]
  · by_cases h : s = IValue.d 1 ∨ s = IValue.i 1
    · have hf : filter_conv2d_elu s = true := by
        rcases h with h | h <;> subst h <;> rfl
      rw [runOnGraphWithFilter, hf, if_pos h]
      rfl
    · have hf : filter_conv2d_elu s = false := by
        cases s with
        | d x =>
            have hx : ¬ x = 1 := fun hx => h (Or.inl (by rw [hx]))
            simp [filter_conv2d_elu, hx]
        | i n =>
            have hn : ¬ n = 1 := fun hn => h (Or.inr (by rw [hn]))
            simp [filter_conv2d_elu, hn]
      rw [runOnGraphWithFilter, hf, if_neg h]
      rfl

/-!
## C10: dtype dispatch of the pixel-shuffle family versus pooling
-/

/-- C10: every pixel-shuffle-family kernel dispatch rejects (with an
error, modelled `none`) any element type other than 32-bit and 64-bit
float — including BFloat16 and Long — while the pooling dispatch does
accept BFloat16 and Long inputs. -/
theorem pixel_shuffle_dispatch_dtypes :
    (∀ (dst src : Tensor) (S : Nat),
      src.dtype ≠ ScalarType.Float → src.dtype ≠ ScalarType.Double →
      pixel_shuffle_kernel dst src S = none ∧
      pixel_shuffle_backward_kernel dst src S = none ∧
      pixel_unshuffle_kernel dst src S = none ∧
      pixel_unshuffle_backward_kernel dst src S = none) ∧
    (∀ (output input : Tensor) (cfg : PoolCfg),
      input.memFmt = MemoryFormat.Contiguous →
      (input.dtype = ScalarType.BFloat16 ∨ input.dtype = ScalarType.Long) →
      (∃ d, avg_pool2d_kernel_impl output input cfg = some d) ∧
      (∃ d, avg_pool2d_backward_kernel_impl output input cfg = some d)) := by
  constructor
  · intro dst src S hF hD
    have hfl : isFloatingDispatch src.dtype = false := by
      cases h : src.dtype <;> simp_all [isFloatingDispatch]
    refine ⟨?_, ?_, ?_, ?_⟩ <;>
      · simp only [pixel_shuffle_kernel, pixel_shuffle_backward_kernel,
          pixel_unshuffle_kernel, pixel_unshuffle_backward_kernel, hfl]
        cases src.memFmt <;> simp
  · intro output input cfg hfmt hdt
    have hok : isPoolDispatch input.dtype = true := by
      rcases hdt with h | h <;> rw [h] <;> rfl
    constructor
    · exact ⟨cpu_avg_pool_t output input cfg,
        by simp only [avg_pool2d_kernel_impl, hfmt, hok, if_true]⟩
    · exact ⟨cpu_avg_pool_backward_t output input cfg,
        by simp only [avg_pool2d_backward_kernel_impl, hfmt, hok, if_true]⟩

/-- Witness for C10 at concrete inputs: a BFloat16 contiguous tensor is
rejected by the pixel-shuffle dispatch and accepted by both pooling
dispatches. -/
theorem pixel_shuffle_dispatch_dtypes_witness :
    (pixel_shuffle_kernel
        (Tensor.mk [1, 4, 2, 2] MemoryFormat.Contiguous
          ScalarType.BFloat16 (fun _ => 0))
        (Tensor.mk [1, 4, 2, 2] MemoryFormat.Contiguous
          ScalarType.BFloat16 (fun _ => 0)) 2 = none) ∧
    (∃ d, avg_pool2d_kernel_impl
        (Tensor.mk [1, 4, 2, 2] MemoryFormat.Contiguous
          ScalarType.BFloat16 (fun _ => 0))
        (Tensor.mk [1, 4, 2, 2] MemoryFormat.Contiguous
          ScalarType.BFloat16 (fun _ => 0))
        (PoolCfg.mk 2 2 2 2 0 0 true none) = some d) := by
  constructor
  · exact (pixel_shuffle_dispatch_dtypes.1 _ _ 2 (by simp) (by simp)).1
  · exact ((pixel_shuffle_dispatch_dtypes.2 _ _
      (PoolCfg.mk 2 2 2 2 0 0 true none) rfl (Or.inl rfl)).1)

end Ipex

namespace Ipex

theorem cpu_pixel_shuffle_at_enc (N sub H W S : Nat) (f : Nat → ℚ)
    (n c h s1 w s2 : Nat) (hn : n < N) (hc : c < sub) (hh : h < H)
    (hs1 : s1 < S) (hw : w < W) (hs2 : s2 < S) :
    cpu_pixel_shuffle N (sub * (S * S)) H W S f
      (((((n * sub + c) * H + h) * S + s1) * W + w) * S + s2) =
    f (n * (sub * (S * S) * H * W) + c * (S * S * H * W) +
       s1 * (S * H * W) + s2 * (H * W) + h * W + w) := by
  have hS : 0 < S := lt_of_le_of_lt (Nat.zero_le s2) hs2
  have hsub : sub * (S * S) / (S * S) = sub :=
    Nat.mul_div_cancel _ (Nat.mul_pos hS hS)
  have m1 := enc_mod ((((n * sub + c) * H + h) * S + s1) * W + w) s2 S hs2
  have d1 := enc_div ((((n * sub + c) * H + h) * S + s1) * W + w) s2 S hs2
  have m2 := enc_mod (((n * sub + c) * H + h) * S + s1) w W hw
  have d2 := enc_div (((n * sub + c) * H + h) * S + s1) w W hw
  have m3 := enc_mod ((n * sub + c) * H + h) s1 S hs1
  have d3 := enc_div ((n * sub + c) * H + h) s1 S hs1
  have m4 := enc_mod (n * sub + c) h H hh
  have d4 := enc_div (n * sub + c) h H hh
  have m5 := enc_mod n c sub hc
  have d5 := enc_div n c sub hc
  have m6 : n % N = n := Nat.mod_eq_of_lt hn
  simp only [cpu_pixel_shuffle, hsub, m1, d1, m2, d2, m3, d3, m4, d4, m5,
    d5, m6]

theorem cpu_pixel_shuffle_backward_at_enc (N sub H W S : Nat)
    (g : Nat → ℚ) (n c s1 s2 h w : Nat) (hn : n < N) (hc : c < sub)
    (hs1 : s1 < S) (hs2 : s2 < S) (hh : h < H) (hw : w < W) :
    cpu_pixel_shuffle_backward N (sub * (S * S)) H W S g
      (((((n * sub + c) * S + s1) * S + s2) * H + h) * W + w) =
    g (n * (sub * (S * S) * H * W) + c * (H * S * W * S) +
       h * (S * W * S) + s1 * (W * S) + w * S + s2) := by
  have hS : 0 < S := lt_of_le_of_lt (Nat.zero_le s2) hs2
  have hsub : sub * (S * S) / (S * S) = sub :=
    Nat.mul_div_cancel _ (Nat.mul_pos hS hS)
  have m1 := enc_mod ((((n * sub + c) * S + s1) * S + s2) * H + h) w W hw
  have d1 := enc_div ((((n * sub + c) * S + s1) * S + s2) * H + h) w W hw
  have m2 := enc_mod (((n * sub + c) * S + s1) * S + s2) h H hh
  have d2 := enc_div (((n * sub + c) * S + s1) * S + s2) h H hh
  have m3 := enc_mod ((n * sub + c) * S + s1) s2 S hs2
  have d3 := enc_div ((n * sub + c) * S + s1) s2 S hs2
  have m4 := enc_mod (n * sub + c) s1 S hs1
  have d4 := enc_div (n * sub + c) s1 S hs1
  have m5 := enc_mod n c sub hc
  have d5 := enc_div n c sub hc
  have m6 : n % N = n := Nat.mod_eq_of_lt hn
  simp only [cpu_pixel_shuffle_backward, hsub, m1, d1, m2, d2, m3, d3,
    m4, d4, m5, d5, m6]

theorem packed_roundtrip_at_enc (N sub H W S : Nat) (f : Nat → ℚ)
    (n c s1 s2 h w : Nat) (hn : n < N) (hc : c < sub) (hs1 : s1 < S)
    (hs2 : s2 < S) (hh : h < H) (hw : w < W) :
    cpu_pixel_shuffle_backward N (sub * (S * S)) H W S
      (cpu_pixel_shuffle N (sub * (S * S)) H W S f)
      (((((n * sub + c) * S + s1) * S + s2) * H + h) * W + w) =
    f (((((n * sub + c) * S + s1) * S + s2) * H + h) * W + w) := by
  rw [cpu_pixel_shuffle_backward_at_enc N sub H W S _ n c s1 s2 h w hn hc
    hs1 hs2 hh hw]
  have harg : n * (sub * (S * S) * H * W) + c * (H * S * W * S) +
      h * (S * W * S) + s1 * (W * S) + w * S + s2 =
      ((((n * sub + c) * H + h) * S + s1) * W + w) * S + s2 := by ring
  rw [harg, cpu_pixel_shuffle_at_enc N sub H W S f n c h s1 w s2 hn hc hh
    hs1 hw hs2]
  congr 1
  ring

end Ipex

namespace Ipex

theorem cpu_pixel_shuffle_cl_at_enc (N sub H W S : Nat) (f : Nat → ℚ)
    (n h s1 w s2 c : Nat) (hn : n < N) (hh : h < H) (hs1 : s1 < S)
    (hw : w < W) (hs2 : s2 < S) (hc : c < sub) :
    cpu_pixel_shuffle_channels_last N (sub * (S * S)) H W S f
      (((((n * H + h) * S + s1) * W + w) * S + s2) * sub + c) =
    f (n * (H * W * (sub * (S * S))) + h * (W * (sub * (S * S))) +
       w * (sub * (S * S)) + c * (S * S) + s1 * S + s2) := by
  have hS : 0 < S := lt_of_le_of_lt (Nat.zero_le s2) hs2
  have hsub : sub * (S * S) / (S * S) = sub :=
    Nat.mul_div_cancel _ (Nat.mul_pos hS hS)
  have m1 := enc_mod ((((n * H + h) * S + s1) * W + w) * S + s2) c sub hc
  have d1 := enc_div ((((n * H + h) * S + s1) * W + w) * S + s2) c sub hc
  have m2 := enc_mod (((n * H + h) * S + s1) * W + w) s2 S hs2
  have d2 := enc_div (((n * H + h) * S + s1) * W + w) s2 S hs2
  have m3 := enc_mod ((n * H + h) * S + s1) w W hw
  have d3 := enc_div ((n * H + h) * S + s1) w W hw
  have m4 := enc_mod (n * H + h) s1 S hs1
  have d4 := enc_div (n * H + h) s1 S hs1
  have m5 := enc_mod n h H hh
  have d5 := enc_div n h H hh
  have m6 : n % N = n := Nat.mod_eq_of_lt hn
  simp only [cpu_pixel_shuffle_channels_last, hsub, m1, d1, m2, d2, m3,
    d3, m4, d4, m5, d5, m6]

theorem cpu_pixel_shuffle_backward_cl_at_enc (N sub H W S : Nat)
    (g : Nat → ℚ) (n h w c s1 s2 : Nat) (hn : n < N) (hh : h < H)
    (hw : w < W) (hc : c < sub) (hs1 : s1 < S) (hs2 : s2 < S) :
    cpu_pixel_shuffle_backward_channels_last N (sub * (S * S)) H W S g
      (((((n * H + h) * W + w) * sub + c) * S + s1) * S + s2) =
    g (n * (H * W * (sub * (S * S))) + h * (S * W * S * sub) +
       s1 * (W * S * sub) + w * (S * sub) + s2 * sub + c) := by
  have hS : 0 < S := lt_of_le_of_lt (Nat.zero_le s2) hs2
  have hsub : sub * (S * S) / (S * S) = sub :=
    Nat.mul_div_cancel _ (Nat.mul_pos hS hS)
  have m1 := enc_mod ((((n * H + h) * W + w) * sub + c) * S + s1) s2 S hs2
  have d1 := enc_div ((((n * H + h) * W + w) * sub + c) * S + s1) s2 S hs2
  have m2 := enc_mod (((n * H + h) * W + w) * sub + c) s1 S hs1
  have d2 := enc_div (((n * H + h) * W + w) * sub + c) s1 S hs1
  have m3 := enc_mod ((n * H + h) * W + w) c sub hc
  have d3 := enc_div ((n * H + h) * W + w) c sub hc
  have m4 := enc_mod (n * H + h) w W hw
  have d4 := enc_div (n * H + h) w W hw
  have m5 := enc_mod n h H hh
  have d5 := enc_div n h H hh
  have m6 : n % N = n := Nat.mod_eq_of_lt hn
  simp only [cpu_pixel_shuffle_backward_channels_last, hsub, m1, d1, m2,
    d2, m3, d3, m4, d4, m5, d5, m6]

theorem cl_roundtrip_at_enc (N sub H W S : Nat) (f : Nat → ℚ)
    (n h w c s1 s2 : Nat) (hn : n < N) (hh : h < H) (hw : w < W)
    (hc : c < sub) (hs1 : s1 < S) (hs2 : s2 < S) :
    cpu_pixel_shuffle_backward_channels_last N (sub * (S * S)) H W S
      (cpu_pixel_shuffle_channels_last N (sub * (S * S)) H W S f)
      (((((n * H + h) * W + w) * sub + c) * S + s1) * S + s2) =
    f (((((n * H + h) * W + w) * sub + c) * S + s1) * S + s2) := by
  rw [cpu_pixel_shuffle_backward_cl_at_enc N sub H W S _ n h w c s1 s2 hn
    hh hw hc hs1 hs2]
  have harg : n * (H * W * (sub * (S * S))) + h * (S * W * S * sub) +
      s1 * (W * S * sub) + w * (S * sub) + s2 * sub + c =
      ((((n * H + h) * S + s1) * W + w) * S + s2) * sub + c := by ring
  rw [harg, cpu_pixel_shuffle_cl_at_enc N sub H W S f n h s1 w s2 c hn hh
    hs1 hw hs2 hc]
  congr 1
  ring

end Ipex

namespace Ipex

theorem sizeNeg_append3 (B : List Nat) (C H W : Nat) :
    sizeNeg (B ++ [C, H, W]) 3 = C := by
  simp [sizeNeg, List.reverse_append, List.getD_cons_succ,
    List.getD_cons_zero]

theorem sizeNeg_append2 (B : List Nat) (C H W : Nat) :
    sizeNeg (B ++ [C, H, W]) 2 = H := by
  simp [sizeNeg, List.reverse_append, List.getD_cons_succ,
    List.getD_cons_zero]

theorem sizeNeg_append1 (B : List Nat) (C H W : Nat) :
    sizeNeg (B ++ [C, H, W]) 1 = W := by
  simp [sizeNeg, List.reverse_append, List.getD_cons_succ,
    List.getD_cons_zero]

theorem take_append3 (B : List Nat) (C H W : Nat) :
    (B ++ [C, H, W]).take ((B ++ [C, H, W]).length - 3) = B := by
  have hl : (B ++ [C, H, W]).length - 3 = B.length := by
    simp [List.length_append]
  rw [hl, List.take_left]

theorem prod_append3 (B : List Nat) (C H W : Nat) :
    (B ++ [C, H, W]).prod = B.prod * (C * (H * W)) := by
  simp [List.prod_append, Nat.mul_assoc]

theorem pixel_shuffle_out_sizes_eq (B : List Nat) (C H W S : Nat) :
    pixel_shuffle_out_sizes (B ++ [C, H, W]) S =
      B ++ [C / S / S, H * S, W * S] := by
  rw [pixel_shuffle_out_sizes, take_append3, sizeNeg_append3,
    sizeNeg_append2, sizeNeg_append1]

theorem pixel_unshuffle_out_sizes_eq (B : List Nat) (C H W S : Nat) :
    pixel_unshuffle_out_sizes (B ++ [C, H, W]) S =
      B ++ [C * S * S, H / S, W / S] := by
  rw [pixel_unshuffle_out_sizes, take_append3, sizeNeg_append3,
    sizeNeg_append2, sizeNeg_append1]

end Ipex

namespace Ipex

theorem cpu_roundtrip_packed (P sub H W S : Nat) (f : Nat → ℚ) (i : Nat)
    (hi : i < P * sub * S * S * H * W) :
    cpu_pixel_shuffle_backward P (sub * (S * S)) H W S
      (cpu_pixel_shuffle P (sub * (S * S)) H W S f) i = f i := by
  obtain ⟨n, c, s1, s2, h, w, hn, hc, hs1, hs2, hh, hw, henc⟩ :=
    exists_enc6 P sub S S H W i hi
  rw [henc]
  exact packed_roundtrip_at_enc P sub H W S f n c s1 s2 h w hn hc hs1
    hs2 hh hw

theorem cpu_roundtrip_cl (P sub H W S : Nat) (f : Nat → ℚ) (i : Nat)
    (hi : i < P * H * W * sub * S * S) :
    cpu_pixel_shuffle_backward_channels_last P (sub * (S * S)) H W S
      (cpu_pixel_shuffle_channels_last P (sub * (S * S)) H W S f) i =
      f i := by
  obtain ⟨n, h, w, c, s1, s2, hn, hh, hw, hc, hs1, hs2, henc⟩ :=
    exists_enc6 P H W sub S S i hi
  rw [henc]
  exact cl_roundtrip_at_enc P sub H W S f n h w c s1 s2 hn hh hw hc hs1
    hs2

theorem pixel_shuffle_cpu_contiguous (x : Tensor) (S : Nat)
    (hfmt : x.memFmt = MemoryFormat.Contiguous)
    (hdt : isFloatingDispatch x.dtype = true) :
    pixel_shuffle_cpu x S = some (Tensor.mk
      (pixel_shuffle_out_sizes x.shape S) x.memFmt x.dtype
      (cpu_pixel_shuffle
        (x.numel / (sizeNeg x.shape 3 * sizeNeg x.shape 2 *
          sizeNeg x.shape 1))
        (sizeNeg x.shape 3) (sizeNeg x.shape 2) (sizeNeg x.shape 1) S
        x.data)) := by
  simp only [pixel_shuffle_cpu, pixel_shuffle_kernel, hfmt, hdt,
    if_true, cpu_pixel_shuffle_t]

theorem pixel_unshuffle_cpu_contiguous (x : Tensor) (S : Nat)
    (hfmt : x.memFmt = MemoryFormat.Contiguous)
    (hdt : isFloatingDispatch x.dtype = true) :
    pixel_unshuffle_cpu x S = some (Tensor.mk
      (pixel_unshuffle_out_sizes x.shape S) x.memFmt x.dtype
      (cpu_pixel_shuffle_backward
        ((pixel_unshuffle_out_sizes x.shape S).prod /
          (sizeNeg (pixel_unshuffle_out_sizes x.shape S) 3 *
           sizeNeg (pixel_unshuffle_out_sizes x.shape S) 2 *
           sizeNeg (pixel_unshuffle_out_sizes x.shape S) 1))
        (sizeNeg (pixel_unshuffle_out_sizes x.shape S) 3)
        (sizeNeg (pixel_unshuffle_out_sizes x.shape S) 2)
        (sizeNeg (pixel_unshuffle_out_sizes x.shape S) 1) S
        x.data)) := by
  simp only [pixel_unshuffle_cpu, pixel_unshuffle_kernel, hfmt, hdt,
    if_true, cpu_pixel_shuffle_backward_t, Tensor.numel]

end Ipex

namespace Ipex

theorem pixel_shuffle_cpu_cl (x : Tensor) (S : Nat)
    (hfmt : x.memFmt = MemoryFormat.ChannelsLast)
    (hdt : isFloatingDispatch x.dtype = true)
    (h4 : x.shape.length = 4) :
    pixel_shuffle_cpu x S = some (Tensor.mk
      (pixel_shuffle_out_sizes x.shape S) x.memFmt x.dtype
      (cpu_pixel_shuffle_channels_last (x.shape.getD 0 0)
        (x.shape.getD 1 0) (x.shape.getD 2 0) (x.shape.getD 3 0) S
        x.data)) := by
  simp only [pixel_shuffle_cpu, pixel_shuffle_kernel, hfmt, hdt,
    if_true, cpu_pixel_shuffle_channels_last_t]
  rw [if_pos h4]

theorem pixel_unshuffle_cpu_cl (x : Tensor) (S : Nat)
    (hfmt : x.memFmt = MemoryFormat.ChannelsLast)
    (hdt : isFloatingDispatch x.dtype = true)
    (h4 : x.shape.length = 4) :
    pixel_unshuffle_cpu x S = some (Tensor.mk
      (pixel_unshuffle_out_sizes x.shape S) x.memFmt x.dtype
      (cpu_pixel_shuffle_backward_channels_last
        ((pixel_unshuffle_out_sizes x.shape S).getD 0 0)
        ((pixel_unshuffle_out_sizes x.shape S).getD 1 0)
        ((pixel_unshuffle_out_sizes x.shape S).getD 2 0)
        ((pixel_unshuffle_out_sizes x.shape S).getD 3 0) S x.data)) := by
  simp only [pixel_unshuffle_cpu, pixel_unshuffle_kernel, hfmt, hdt,
    if_true, cpu_pixel_shuffle_backward_channels_last_t]
  rw [if_pos h4]

theorem roundtrip_contiguous (x : Tensor) (B : List Nat) (C H W S : Nat)
    (hsh : x.shape = B ++ [C, H, W])
    (hfmt : x.memFmt = MemoryFormat.Contiguous)
    (hdt : isFloatingDispatch x.dtype = true)
    (hS : 0 < S) (hdvd : S * S ∣ C) :
    ∃ y z, pixel_shuffle_cpu x S = some y ∧
      pixel_unshuffle_cpu y S = some z ∧ z.shape = x.shape ∧
      ∀ i < x.numel, z.data i = x.data i := by
  obtain ⟨sub, hC0⟩ := hdvd
  have hC : C = sub * (S * S) := by rw [hC0]; ring
  have hdiv : C / S / S = sub := by
    rw [Nat.div_div_eq_div_mul, hC,
      Nat.mul_div_cancel _ (Nat.mul_pos hS hS)]
  have hysh : pixel_shuffle_out_sizes x.shape S =
      B ++ [sub, H * S, W * S] := by
    rw [hsh, pixel_shuffle_out_sizes_eq, hdiv]
  have hzsh : pixel_unshuffle_out_sizes
      (pixel_shuffle_out_sizes x.shape S) S = B ++ [C, H, W] := by
    rw [hysh, pixel_unshuffle_out_sizes_eq,
      Nat.mul_div_cancel H hS, Nat.mul_div_cancel W hS]
    have h2 : sub * S * S = C := by rw [hC]; ring
    rw [h2]
  have hnumel : x.numel = B.prod * (C * (H * W)) := by
    rw [Tensor.numel, hsh, prod_append3]
  refine ⟨_, _, pixel_shuffle_cpu_contiguous x S hfmt hdt,
    pixel_unshuffle_cpu_contiguous _ S hfmt hdt, ?_, ?_⟩
  · show pixel_unshuffle_out_sizes (pixel_shuffle_out_sizes x.shape S) S
      = x.shape
    rw [hzsh, hsh]
  · intro i hi
    show cpu_pixel_shuffle_backward
      ((pixel_unshuffle_out_sizes (pixel_shuffle_out_sizes x.shape S) S).prod /
        (sizeNeg (pixel_unshuffle_out_sizes (pixel_shuffle_out_sizes x.shape S) S) 3 *
         sizeNeg (pixel_unshuffle_out_sizes (pixel_shuffle_out_sizes x.shape S) S) 2 *
         sizeNeg (pixel_unshuffle_out_sizes (pixel_shuffle_out_sizes x.shape S) S) 1))
      (sizeNeg (pixel_unshuffle_out_sizes (pixel_shuffle_out_sizes x.shape S) S) 3)
      (sizeNeg (pixel_unshuffle_out_sizes (pixel_shuffle_out_sizes x.shape S) S) 2)
      (sizeNeg (pixel_unshuffle_out_sizes (pixel_shuffle_out_sizes x.shape S) S) 1) S
      (cpu_pixel_shuffle
        (x.numel / (sizeNeg x.shape 3 * sizeNeg x.shape 2 * sizeNeg x.shape 1))
        (sizeNeg x.shape 3) (sizeNeg x.shape 2) (sizeNeg x.shape 1) S
        x.data) i = x.data i
    have hpos : 0 < B.prod * (C * (H * W)) := by
      rw [← hnumel]
      exact lt_of_le_of_lt (Nat.zero_le i) hi
    have hCHW : 0 < C * (H * W) := pos_of_mul_pos_right _ _ hpos
    have hnb : B.prod * (C * (H * W)) / (C * H * W) = B.prod := by
      rw [Nat.mul_assoc C H W]
      exact Nat.mul_div_cancel _ hCHW
    rw [hzsh, sizeNeg_append3, sizeNeg_append2, sizeNeg_append1,
      prod_append3, hnb, hsh, sizeNeg_append3, sizeNeg_append2,
      sizeNeg_append1, hnumel, hnb, hC]
    apply cpu_roundtrip_packed
    have hb : B.prod * (sub * (S * S) * (H * W)) =
        B.prod * sub * S * S * H * W := by ring
    calc i < x.numel := hi
      _ = B.prod * (sub * (S * S) * (H * W)) := by rw [hnumel, hC]
      _ = B.prod * sub * S * S * H * W := hb

end Ipex

namespace Ipex

theorem roundtrip_channels_last (x : Tensor) (N C H W S : Nat)
    (hsh : x.shape = [N, C, H, W])
    (hfmt : x.memFmt = MemoryFormat.ChannelsLast)
    (hdt : isFloatingDispatch x.dtype = true)
    (hS : 0 < S) (hdvd : S * S ∣ C) :
    ∃ y z, pixel_shuffle_cpu x S = some y ∧
      pixel_unshuffle_cpu y S = some z ∧ z.shape = x.shape ∧
      ∀ i < x.numel, z.data i = x.data i := by
  obtain ⟨sub, hC0⟩ := hdvd
  have hC : C = sub * (S * S) := by rw [hC0]; ring
  have hdiv : C / S / S = sub := by
    rw [Nat.div_div_eq_div_mul, hC,
      Nat.mul_div_cancel _ (Nat.mul_pos hS hS)]
  have hsh2 : x.shape = [N] ++ [C, H, W] := hsh
  have h4 : x.shape.length = 4 := by rw [hsh]; rfl
  have hysh : pixel_shuffle_out_sizes x.shape S =
      [N] ++ [sub, H * S, W * S] := by
    rw [hsh2, pixel_shuffle_out_sizes_eq, hdiv]
  have hy4 : (pixel_shuffle_out_sizes x.shape S).length = 4 := by
    rw [hysh]; rfl
  have hzsh : pixel_unshuffle_out_sizes
      (pixel_shuffle_out_sizes x.shape S) S = [N] ++ [C, H, W] := by
    rw [hysh, pixel_unshuffle_out_sizes_eq,
      Nat.mul_div_cancel H hS, Nat.mul_div_cancel W hS]
    have h2 : sub * S * S = C := by rw [hC]; ring
    rw [h2]
  have hnumel : x.numel = N * (C * (H * W)) := by
    rw [Tensor.numel, hsh2, prod_append3]
    simp [List.prod_cons, List.prod_nil]
  refine ⟨_, _, pixel_shuffle_cpu_cl x S hfmt hdt h4,
    pixel_unshuffle_cpu_cl _ S hfmt hdt hy4, ?_, ?_⟩
  · show pixel_unshuffle_out_sizes (pixel_shuffle_out_sizes x.shape S) S
      = x.shape
    rw [hzsh, hsh2]
  · intro i hi
    show cpu_pixel_shuffle_backward_channels_last
      ((pixel_unshuffle_out_sizes (pixel_shuffle_out_sizes x.shape S) S).getD 0 0)
      ((pixel_unshuffle_out_sizes (pixel_shuffle_out_sizes x.shape S) S).getD 1 0)
      ((pixel_unshuffle_out_sizes (pixel_shuffle_out_sizes x.shape S) S).getD 2 0)
      ((pixel_unshuffle_out_sizes (pixel_shuffle_out_sizes x.shape S) S).getD 3 0) S
      (cpu_pixel_shuffle_channels_last (x.shape.getD 0 0)
        (x.shape.getD 1 0) (x.shape.getD 2 0) (x.shape.getD 3 0) S
        x.data) i = x.data i
    have hz0 : (pixel_unshuffle_out_sizes
        (pixel_shuffle_out_sizes x.shape S) S).getD 0 0 = N := by
      rw [hzsh]; rfl
    have hz1 : (pixel_unshuffle_out_sizes
        (pixel_shuffle_out_sizes x.shape S) S).getD 1 0 = C := by
      rw [hzsh]; rfl
    have hz2 : (pixel_unshuffle_out_sizes
        (pixel_shuffle_out_sizes x.shape S) S).getD 2 0 = H := by
      rw [hzsh]; rfl
    have hz3 : (pixel_unshuffle_out_sizes
        (pixel_shuffle_out_sizes x.shape S) S).getD 3 0 = W := by
      rw [hzsh]; rfl
    have hx0 : x.shape.getD 0 0 = N := by rw [hsh]; rfl
    have hx1 : x.shape.getD 1 0 = C := by rw [hsh]; rfl
    have hx2 : x.shape.getD 2 0 = H := by rw [hsh]; rfl
    have hx3 : x.shape.getD 3 0 = W := by rw [hsh]; rfl
    rw [hz0, hz1, hz2, hz3, hx0, hx1, hx2, hx3, hC]
    apply cpu_roundtrip_cl
    calc i < x.numel := hi
      _ = N * (C * (H * W)) := hnumel
      _ = N * H * W * sub * S * S := by rw [hC]; ring

end Ipex

namespace Ipex

/-- C1: for every tensor of rank at least 3 whose channel dimension is
divisible by the square of the factor `S > 0`, in both the packed
(contiguous) layout and the channels-last layout (which requires rank 4),
`pixel_unshuffle_cpu (pixel_shuffle_cpu x S) S` succeeds, has exactly the
shape of `x`, and agrees with `x` element for element: the two operations
are mutually inverse pure permutations. -/
theorem pixel_unshuffle_of_shuffle_roundtrip (x : Tensor)
    (B : List Nat) (C H W S : Nat)
    (hsh : x.shape = B ++ [C, H, W])
    (hfmt : x.memFmt = MemoryFormat.Contiguous ∨
      (x.memFmt = MemoryFormat.ChannelsLast ∧ B.length = 1))
    (hdt : isFloatingDispatch x.dtype = true)
    (hS : 0 < S) (hdvd : S * S ∣ C) :
    ∃ y z, pixel_shuffle_cpu x S = some y ∧
      pixel_unshuffle_cpu y S = some z ∧ z.shape = x.shape ∧
      ∀ i < x.numel, z.data i = x.data i := by
  rcases hfmt with hfmt | ⟨hfmt, hB⟩
  · exact roundtrip_contiguous x B C H W S hsh hfmt hdt hS hdvd
  · obtain ⟨N, hBN⟩ := List.length_eq_one.mp hB
    subst hBN
    exact roundtrip_channels_last x N C H W S hsh hfmt hdt hS hdvd

theorem pixel_unshuffle_of_shuffle_roundtrip_witness :
    0 < 2 ∧ (2 * 2 ∣ 4) ∧
    (∃ y z, pixel_shuffle_cpu (Tensor.mk [1, 4, 2, 3]
        MemoryFormat.Contiguous ScalarType.Float (fun i => (i : ℚ))) 2 =
        some y ∧
      pixel_unshuffle_cpu y 2 = some z ∧
      z.shape = (Tensor.mk [1, 4, 2, 3] MemoryFormat.Contiguous
        ScalarType.Float (fun i => (i : ℚ))).shape ∧
      ∀ i < (Tensor.mk [1, 4, 2, 3] MemoryFormat.Contiguous
        ScalarType.Float (fun i => (i : ℚ))).numel,
        z.data i = (Tensor.mk [1, 4, 2, 3] MemoryFormat.Contiguous
          ScalarType.Float (fun i => (i : ℚ))).data i) :=
  ⟨by decide, by decide,
    pixel_unshuffle_of_shuffle_roundtrip
      (Tensor.mk [1, 4, 2, 3] MemoryFormat.Contiguous ScalarType.Float
        (fun i => (i : ℚ)))
      [1] 4 2 3 2 rfl (Or.inl rfl) rfl (by decide) (by decide)⟩

/-- C2: for every input of rank at least 3 with channel count `C`
divisible by `S * S`, `pixel_shuffle_cpu` returns a tensor of shape
`[..., C / S², H * S, W * S]`; for every input with spatial sizes
divisible by `S`, `pixel_unshuffle_cpu` returns a tensor of shape
`[..., C * S², H / S, W / S]` — with all leading batch dimensions
unchanged, in both the packed (contiguous) layout and the channels-last
layout (which requires rank 4). -/
theorem pixel_shuffle_shape_law :
    (∀ (x : Tensor) (B : List Nat) (C H W S : Nat),
      x.shape = B ++ [C, H, W] →
      (x.memFmt = MemoryFormat.Contiguous ∨
        (x.memFmt = MemoryFormat.ChannelsLast ∧ B.length = 1)) →
      isFloatingDispatch x.dtype = true → 0 < S → S * S ∣ C →
      ∃ y, pixel_shuffle_cpu x S = some y ∧
        y.shape = B ++ [C / (S * S), H * S, W * S]) ∧
    (∀ (x : Tensor) (B : List Nat) (C H W S : Nat),
      x.shape = B ++ [C, H, W] →
      (x.memFmt = MemoryFormat.Contiguous ∨
        (x.memFmt = MemoryFormat.ChannelsLast ∧ B.length = 1)) →
      isFloatingDispatch x.dtype = true → 0 < S → S ∣ H → S ∣ W →
      ∃ z, pixel_unshuffle_cpu x S = some z ∧
        z.shape = B ++ [C * (S * S), H / S, W / S]) := by
  constructor
  · intro x B C H W S hsh hfmt hdt hS hdvd
    have hshape : pixel_shuffle_out_sizes x.shape S =
        B ++ [C / (S * S), H * S, W * S] := by
      rw [hsh, pixel_shuffle_out_sizes_eq, Nat.div_div_eq_div_mul]
    rcases hfmt with hfmt | ⟨hfmt, hB⟩
    · exact ⟨_, pixel_shuffle_cpu_contiguous x S hfmt hdt, hshape⟩
    · obtain ⟨N, hBN⟩ := List.length_eq_one.mp hB
      subst hBN
      have h4 : x.shape.length = 4 := by rw [hsh]; rfl
      exact ⟨_, pixel_shuffle_cpu_cl x S hfmt hdt h4, hshape⟩
  · intro x B C H W S hsh hfmt hdt hS hdvdH hdvdW
    have hshape : pixel_unshuffle_out_sizes x.shape S =
        B ++ [C * (S * S), H / S, W / S] := by
      rw [hsh, pixel_unshuffle_out_sizes_eq, Nat.mul_assoc]
    rcases hfmt with hfmt | ⟨hfmt, hB⟩
    · exact ⟨_, pixel_unshuffle_cpu_contiguous x S hfmt hdt, hshape⟩
    · obtain ⟨N, hBN⟩ := List.length_eq_one.mp hB
      subst hBN
      have h4 : x.shape.length = 4 := by rw [hsh]; rfl
      exact ⟨_, pixel_unshuffle_cpu_cl x S hfmt hdt h4, hshape⟩

theorem parsePoolArgs_none_of_bad (ks st pad : List Int)
    (od : Option Int)
    (hbad : ¬(ks.length = 1 ∨ ks.length = 2) ∨
      ¬(st.length = 0 ∨ st.length = 1 ∨ st.length = 2) ∨
      ¬(pad.length = 1 ∨ pad.length = 2) ∨ od = some 0) :
    parsePoolArgs ks st pad od = none := by
  simp only [parsePoolArgs]
  by_cases h1 : ks.length = 1 ∨ ks.length = 2
  · rw [if_neg (not_not_intro h1)]
    by_cases h2 : st.length = 0 ∨ st.length = 1 ∨ st.length = 2
    · rw [if_neg (not_not_intro h2)]
      by_cases h3 : pad.length = 1 ∨ pad.length = 2
      · rw [if_neg (not_not_intro h3)]
        have h4 : od = some 0 := by
          rcases hbad with h | h | h | h
          · exact absurd h1 h
          · exact absurd h2 h
          · exact absurd h3 h
          · exact h
        rw [if_pos h4]
      · rw [if_pos h3]
    · rw [if_pos h2]
  · rw [if_pos h1]

theorem parsePoolArgsBackward_none_of_bad (ks st pad : List Int)
    (od : Option Int)
    (hbad : ¬(ks.length = 1 ∨ ks.length = 2) ∨
      ¬(st.length = 0 ∨ st.length = 1 ∨ st.length = 2) ∨
      ¬(pad.length = 1 ∨ pad.length = 2) ∨ od = some 0) :
    parsePoolArgsBackward ks st pad od = none := by
  simp only [parsePoolArgsBackward]
  by_cases h1 : ks.length = 1 ∨ ks.length = 2
  · rw [if_neg (not_not_intro h1)]
    by_cases h2 : st.length = 0 ∨ st.length = 1 ∨ st.length = 2
    · rw [if_neg (not_not_intro h2)]
      by_cases h3 : pad.length = 1 ∨ pad.length = 2
      · rw [if_neg (not_not_intro h3)]
        have h4 : od = some 0 := by
          rcases hbad with h | h | h | h
          · exact absurd h1 h
          · exact absurd h2 h
          · exact absurd h3 h
          · exact h
        rw [if_pos h4]
      · rw [if_pos h3]
    · rw [if_pos h2]
  · rw [if_pos h1]

/-- C7 counterexample: an empty stride list has length neither 1 nor 2,
yet the forward entry point accepts the call and produces an output. -/
theorem avg_pool_invalid_args_counterexample :
    (([] : List Int).length ≠ 1 ∧ ([] : List Int).length ≠ 2) ∧
    (avg_pool2d_out_cpu
      (Tensor.mk [1, 1, 4, 4] MemoryFormat.Contiguous ScalarType.Float
        (fun _ => 1)) [2] [] [0] false true none).isSome = true := by
  exact ⟨⟨by decide, by decide⟩, by decide⟩

/-- C7 (amended: an empty stride list is accepted and defaults to the
kernel size, so only a nonempty stride list of bad length is rejected):
if the kernel or padding list has a length other than 1 or 2, or the
stride list is nonempty with a length other than 1 or 2, or an explicit
zero divisor override is supplied, both entry points fail and produce no
output tensor. -/
theorem avg_pool_invalid_args_rejected (input gradOutput : Tensor)
    (kernel_size stride padding : List Int)
    (ceil_mode count_include_pad : Bool) (od : Option Int)
    (hbad : ¬(kernel_size.length = 1 ∨ kernel_size.length = 2) ∨
      ¬(stride.length = 0 ∨ stride.length = 1 ∨ stride.length = 2) ∨
      ¬(padding.length = 1 ∨ padding.length = 2) ∨ od = some 0) :
    avg_pool2d_out_cpu input kernel_size stride padding ceil_mode
      count_include_pad od = none ∧
    avg_pool2d_backward_out_cpu gradOutput input kernel_size stride
      padding ceil_mode count_include_pad od = none := by
  constructor
  · simp only [avg_pool2d_out_cpu,
      parsePoolArgs_none_of_bad kernel_size stride padding od hbad]
  · simp only [avg_pool2d_backward_out_cpu,
      parsePoolArgsBackward_none_of_bad kernel_size stride padding od
        hbad]

theorem avg_pool_invalid_args_rejected_witness :
    (¬(([1, 2, 3] : List Int).length = 1 ∨
       ([1, 2, 3] : List Int).length = 2)) ∧
    (avg_pool2d_out_cpu
      (Tensor.mk [1, 1, 4, 4] MemoryFormat.Contiguous ScalarType.Float
        (fun _ => 1)) [1, 2, 3] [] [0] false true none = none ∧
    avg_pool2d_backward_out_cpu
      (Tensor.mk [1, 1, 2, 2] MemoryFormat.Contiguous ScalarType.Float
        (fun _ => 1))
      (Tensor.mk [1, 1, 4, 4] MemoryFormat.Contiguous ScalarType.Float
        (fun _ => 1)) [1, 2, 3] [] [0] false true none = none) :=
  ⟨by decide,
    avg_pool_invalid_args_rejected
      (Tensor.mk [1, 1, 4, 4] MemoryFormat.Contiguous ScalarType.Float
        (fun _ => 1))
      (Tensor.mk [1, 1, 2, 2] MemoryFormat.Contiguous ScalarType.Float
        (fun _ => 1))
      [1, 2, 3] [] [0] false true none (Or.inl (by decide))⟩

/-- C9: at both entry points, an empty stride list is accepted, with the
stride defaulting to the kernel size in each dimension, and a length-one
stride list applies its single value to both dimensions. -/
theorem avg_pool_stride_defaults (ks padding : List Int)
    (od : Option Int) (s : Int)
    (hk : ks.length = 1 ∨ ks.length = 2)
    (hp : padding.length = 1 ∨ padding.length = 2)
    (hd : od ≠ some 0) :
    parsePoolArgs ks [] padding od = some (ks.getD 0 0,
      (if ks.length = 1 then ks.getD 0 0 else ks.getD 1 0),
      ks.getD 0 0,
      (if ks.length = 1 then ks.getD 0 0 else ks.getD 1 0),
      padding.getD 0 0,
      (if padding.length = 1 then padding.getD 0 0
       else padding.getD 1 0)) ∧
    parsePoolArgs ks [s] padding od = some (ks.getD 0 0,
      (if ks.length = 1 then ks.getD 0 0 else ks.getD 1 0), s, s,
      padding.getD 0 0,
      (if padding.length = 1 then padding.getD 0 0
       else padding.getD 1 0)) ∧
    parsePoolArgsBackward ks [] padding od = some (ks.getD 0 0,
      (if ks.length = 1 then ks.getD 0 0 else ks.getD 1 0),
      ks.getD 0 0,
      (if ks.length = 1 then ks.getD 0 0 else ks.getD 1 0),
      padding.getD 0 0,
      (if padding.length = 1 then padding.getD 0 0
       else padding.getD 1 0)) ∧
    parsePoolArgsBackward ks [s] padding od = some (ks.getD 0 0,
      (if ks.length = 1 then ks.getD 0 0 else ks.getD 1 0), s, s,
      padding.getD 0 0,
      (if padding.length = 1 then padding.getD 0 0
       else padding.getD 1 0)) := by
  refine ⟨?_, ?_, ?_, ?_⟩ <;>
    · simp only [parsePoolArgs, parsePoolArgsBackward]
      rw [if_neg (not_not_intro hk), if_neg (by simp),
        if_neg (not_not_intro hp), if_neg hd]
      rfl

theorem avg_pool_stride_defaults_witness :
    (([3] : List Int).length = 1 ∨ ([3] : List Int).length = 2) ∧
    (parsePoolArgs [3] [] [1] none = some (([3] : List Int).getD 0 0,
      (if ([3] : List Int).length = 1 then ([3] : List Int).getD 0 0
       else ([3] : List Int).getD 1 0),
      ([3] : List Int).getD 0 0,
      (if ([3] : List Int).length = 1 then ([3] : List Int).getD 0 0
       else ([3] : List Int).getD 1 0),
      ([1] : List Int).getD 0 0,
      (if ([1] : List Int).length = 1 then ([1] : List Int).getD 0 0
       else ([1] : List Int).getD 1 0))) :=
  ⟨Or.inl (by decide),
    (avg_pool_stride_defaults [3] [1] none 2 (Or.inl (by decide))
      (Or.inl (by decide)) (by decide)).1⟩

theorem pixel_shuffle_shape_law_witness :
    (∃ y, pixel_shuffle_cpu (Tensor.mk [1, 4, 2, 3]
        MemoryFormat.Contiguous ScalarType.Float (fun _ => 0)) 2 =
        some y ∧
      y.shape = [1] ++ [4 / (2 * 2), 2 * 2, 3 * 2]) ∧
    (∃ z, pixel_unshuffle_cpu (Tensor.mk [1, 3, 2, 4]
        MemoryFormat.Contiguous ScalarType.Float (fun _ => 0)) 2 =
        some z ∧
      z.shape = [1] ++ [3 * (2 * 2), 2 / 2, 4 / 2]) ∧
    (∃ y, pixel_shuffle_cpu (Tensor.mk [1, 4, 2, 3]
        MemoryFormat.ChannelsLast ScalarType.Float (fun _ => 0)) 2 =
        some y ∧
      y.shape = [1] ++ [4 / (2 * 2), 2 * 2, 3 * 2]) ∧
    (∃ z, pixel_unshuffle_cpu (Tensor.mk [1, 3, 2, 4]
        MemoryFormat.ChannelsLast ScalarType.Float (fun _ => 0)) 2 =
        some z ∧
      z.shape = [1] ++ [3 * (2 * 2), 2 / 2, 4 / 2]) :=
  ⟨pixel_shuffle_shape_law.1
      (Tensor.mk [1, 4, 2, 3] MemoryFormat.Contiguous ScalarType.Float
        (fun _ => 0)) [1] 4 2 3 2 rfl (Or.inl rfl) rfl (by decide)
      (by decide),
    pixel_shuffle_shape_law.2
      (Tensor.mk [1, 3, 2, 4] MemoryFormat.Contiguous ScalarType.Float
        (fun _ => 0)) [1] 3 2 4 2 rfl (Or.inl rfl) rfl (by decide)
      (by decide) (by decide),
    pixel_shuffle_shape_law.1
      (Tensor.mk [1, 4, 2, 3] MemoryFormat.ChannelsLast
        ScalarType.Float (fun _ => 0)) [1] 4 2 3 2 rfl
      (Or.inr ⟨rfl, rfl⟩) rfl (by decide) (by decide),
    pixel_shuffle_shape_law.2
      (Tensor.mk [1, 3, 2, 4] MemoryFormat.ChannelsLast
        ScalarType.Float (fun _ => 0)) [1] 3 2 4 2 rfl
      (Or.inr ⟨rfl, rfl⟩) rfl (by decide) (by decide) (by decide)⟩

end Ipex

namespace Ipex

/-- C6: for every pooling configuration (any divisor policy, including an
explicit override) and every output position whose clamped window is
empty, the forward kernels set that output element to exactly 0 — on the
packed path, the channels-last path, and the BFloat16 channels-last
path. -/
theorem avg_pool_empty_window_zero :
    (∀ (channels IH IW OH OW : Nat) (cfg : PoolCfg) (input : Nat → ℚ)
      (i : Nat),
      (ih1c cfg IH (i / OW % OH) ≤ ih0c cfg (i / OW % OH) ∨
       iw1c cfg IW (i % OW) ≤ iw0c cfg (i % OW)) →
      cpu_avg_pool channels IH IW OH OW cfg input i = 0) ∧
    (∀ (nbatch channels IH IW OH OW : Nat) (cfg : PoolCfg)
      (input : Nat → ℚ) (p : Nat),
      (ih1c cfg IH (p / channels / OW % OH) ≤
        ih0c cfg (p / channels / OW % OH) ∨
       iw1c cfg IW (p / channels % OW) ≤ iw0c cfg (p / channels % OW)) →
      cpu_avg_pool_channels_last nbatch channels IH IW OH OW cfg input
        p = 0) ∧
    (∀ (nbatch channels IH IW OH OW : Nat) (cfg : PoolCfg)
      (input : Nat → ℚ) (p : Nat),
      (ih1c cfg IH (p / channels / OW % OH) ≤
        ih0c cfg (p / channels / OW % OH) ∨
       iw1c cfg IW (p / channels % OW) ≤ iw0c cfg (p / channels % OW)) →
      cpu_avg_pool_channels_last_bf16 nbatch channels IH IW OH OW cfg
        input p = 0) := by
  refine ⟨?_, ?_, ?_⟩
  · intro channels IH IW OH OW cfg input i h
    simp only [cpu_avg_pool]
    rw [if_pos h]
  · intro nbatch channels IH IW OH OW cfg input p h
    simp only [cpu_avg_pool_channels_last]
    rw [if_pos h]
  · intro nbatch channels IH IW OH OW cfg input p h
    simp only [cpu_avg_pool_channels_last_bf16]
    rw [if_pos h]

theorem avg_pool_empty_window_zero_witness :
    (ih1c (PoolCfg.mk 1 1 1 1 1 1 true none) 1 (0 / 1 % 1) ≤
      ih0c (PoolCfg.mk 1 1 1 1 1 1 true none) (0 / 1 % 1) ∨
     iw1c (PoolCfg.mk 1 1 1 1 1 1 true none) 1 (0 % 1) ≤
      iw0c (PoolCfg.mk 1 1 1 1 1 1 true none) (0 % 1)) ∧
    cpu_avg_pool 1 1 1 1 1 (PoolCfg.mk 1 1 1 1 1 1 true none)
      (fun _ => 5) 0 = 0 ∧
    cpu_avg_pool_channels_last 1 1 1 1 1 1
      (PoolCfg.mk 1 1 1 1 1 1 true none) (fun _ => 5) 0 = 0 ∧
    cpu_avg_pool_channels_last_bf16 1 1 1 1 1 1
      (PoolCfg.mk 1 1 1 1 1 1 true none) (fun _ => 5) 0 = 0 :=
  ⟨by decide,
    avg_pool_empty_window_zero.1 1 1 1 1 1 _ _ 0 (by decide),
    avg_pool_empty_window_zero.2.1 1 1 1 1 1 1 _ _ 0 (by decide),
    avg_pool_empty_window_zero.2.2 1 1 1 1 1 1 _ _ 0 (by decide)⟩

/-- C5: for a 1×1×2×2 all-ones input with kernel 3, stride 1, padding 1
and no divisor override, avg_pool2d forward produces `output[0][0] = 4/9`
when `count_include_pad` is true (divisor 9 from the padded 3×3 window,
sum 4 from the four in-bounds ones) and `output[0][0] = 1` when
`count_include_pad` is false (divisor is the clamped in-bounds count
4). -/
theorem avg_pool_padding_divisor_values :
    (avg_pool2d_out_cpu
      (Tensor.mk [1, 1, 2, 2] MemoryFormat.Contiguous ScalarType.Float
        (fun _ => 1)) [3] [1] [1] false true none).map
      (fun y => y.data 0) = some ((4 : ℚ) / 9) ∧
    (avg_pool2d_out_cpu
      (Tensor.mk [1, 1, 2, 2] MemoryFormat.Contiguous ScalarType.Float
        (fun _ => 1)) [3] [1] [1] false false none).map
      (fun y => y.data 0) = some 1 := by
  have hico : Finset.Ico (0 : Int) 2 = {0, 1} := by decide
  have h1 : avg_pool2d_out_cpu
      (Tensor.mk [1, 1, 2, 2] MemoryFormat.Contiguous ScalarType.Float
        (fun _ => 1)) [3] [1] [1] false true none =
      some (Tensor.mk [1, 1, 2, 2] MemoryFormat.Contiguous
        ScalarType.Float
        (cpu_avg_pool 1 2 2 2 2 (PoolCfg.mk 3 3 1 1 1 1 true none)
          (fun _ => 1))) := rfl
  have h2 : avg_pool2d_out_cpu
      (Tensor.mk [1, 1, 2, 2] MemoryFormat.Contiguous ScalarType.Float
        (fun _ => 1)) [3] [1] [1] false false none =
      some (Tensor.mk [1, 1, 2, 2] MemoryFormat.Contiguous
        ScalarType.Float
        (cpu_avg_pool 1 2 2 2 2 (PoolCfg.mk 3 3 1 1 1 1 false none)
          (fun _ => 1))) := rfl
  have hv1 : cpu_avg_pool 1 2 2 2 2 (PoolCfg.mk 3 3 1 1 1 1 true none)
      (fun _ => 1) 0 = (4 : ℚ) / 9 := by
    norm_num [cpu_avg_pool, windowSum, divideFactor, poolSize, ih0c,
      ih1c, iw0c, iw1c, ih0, ih1, iw0, iw1, hico, Finset.sum_insert,
      Finset.sum_singleton]
  have hv2 : cpu_avg_pool 1 2 2 2 2 (PoolCfg.mk 3 3 1 1 1 1 false none)
      (fun _ => 1) 0 = (1 : ℚ) := by
    norm_num [cpu_avg_pool, windowSum, divideFactor, poolSize, ih0c,
      ih1c, iw0c, iw1c, ih0, ih1, iw0, iw1, hico, Finset.sum_insert,
      Finset.sum_singleton]
  rw [h1, h2]
  constructor
  · exact congrArg some hv1
  · exact congrArg some hv2

end Ipex

namespace Ipex

theorem bwStep_apply (cfg : PoolCfg) (IH IW OH OW : Nat)
    (gout : Nat → ℚ) (g : Nat → ℚ) (t : Nat × Nat × Nat) (p : Nat) :
    bwStep cfg IH IW OH OW gout g t p =
      g p + (if inBwWindow cfg IH IW t p then
        bwDelta cfg IH IW OH OW gout t else 0) := by
  by_cases h : inBwWindow cfg IH IW t p <;> simp [bwStep, h]

theorem foldl_bwStep (cfg : PoolCfg) (IH IW OH OW : Nat)
    (gout : Nat → ℚ) (l : List (Nat × Nat × Nat)) (g : Nat → ℚ)
    (p : Nat) :
    (l.foldl (bwStep cfg IH IW OH OW gout) g) p =
      g p + (l.map (fun t => if inBwWindow cfg IH IW t p then
        bwDelta cfg IH IW OH OW gout t else 0)).sum := by
  induction l generalizing g with
  | nil => simp
  | cons t l ih =>
      rw [List.foldl_cons, ih, List.map_cons, List.sum_cons,
        bwStep_apply]
      ring

theorem sum_map_range (n : Nat) (f : Nat → ℚ) :
    ((List.range n).map f).sum = ∑ k ∈ Finset.range n, f k := by
  induction n with
  | zero => simp
  | succ n ih =>
      rw [List.range_succ, List.map_append, List.sum_append,
        Finset.sum_range_succ, ih]
      simp

theorem sum_map_flatMap {α β : Type} (l : List α) (f : α → List β)
    (g : β → ℚ) :
    ((l.flatMap f).map g).sum = (l.map (fun a => ((f a).map g).sum)).sum := by
  induction l with
  | nil => simp
  | cons a l ih =>
      rw [List.flatMap_cons, List.map_append, List.sum_append, ih,
        List.map_cons, List.sum_cons]

theorem sum_ite_const (P : Prop) [Decidable P] (s : Finset Nat)
    (f : Nat → ℚ) :
    (∑ a ∈ s, if P then f a else 0) = if P then ∑ a ∈ s, f a else 0 := by
  split_ifs with h
  · rfl
  · exact Finset.sum_const_zero

/-- C4: for every pooling configuration and gradient tensor, the
avg_pool2d backward kernel produces a grad-input in which each input
position `(c, ih, iw)` equals the sum, over every output window
containing that position, of `grad_output[window] / divisor[window]`, the
accumulation starting from a zero-initialised tensor (so a position
covered by no window is exactly 0), with each window's divisor given by
the same `divideFactor` policy as the forward kernels. -/
theorem avg_pool_backward_scatter_sum (channels IH IW OH OW : Nat)
    (cfg : PoolCfg) (gout : Nat → ℚ) (c ih iw : Nat)
    (hc : c < channels) (hih : ih < IH) (hiw : iw < IW) :
    cpu_avg_pool_backward channels IH IW OH OW cfg gout
      (c * (IH * IW) + (ih * IW + iw)) =
    ∑ oh ∈ Finset.range OH, ∑ ow ∈ Finset.range OW,
      (if windowContains cfg IH IW oh ow ih iw then
        gout (c * (OH * OW) + oh * OW + ow) /
          (divideFactor cfg IH IW oh ow : ℚ)
       else 0) := by
  have hx : ih * IW + iw < IH * IW := by
    calc ih * IW + iw < ih * IW + IW := by omega
      _ = (ih + 1) * IW := by ring
      _ ≤ IH * IW := Nat.mul_le_mul_right IW (by omega)
  have hdiv := enc_div c (ih * IW + iw) (IH * IW) hx
  have hmod := enc_mod c (ih * IW + iw) (IH * IW) hx
  have hdiv2 := enc_div ih iw IW hiw
  have hmod2 := enc_mod ih iw IW hiw
  rw [cpu_avg_pool_backward, foldl_bwStep]
  simp only [zero_add]
  simp only [poolTriples, sum_map_flatMap, List.map_map, sum_map_range,
    Function.comp]
  simp only [inBwWindow, hdiv, hmod, hdiv2, hmod2, bwDelta]
  simp only [ite_and, sum_ite_const]
  rw [Finset.sum_ite_eq]
  rw [if_pos (Finset.mem_range.mpr hc)]

end Ipex

namespace Ipex

theorem avg_pool_backward_scatter_sum_witness :
    (0 < 1 ∧ 1 < 2 ∧ 0 < 1) ∧
    cpu_avg_pool_backward 1 2 1 2 1 (PoolCfg.mk 1 2 1 1 0 0 true none)
      (fun _ => 1) (0 * (2 * 1) + (1 * 1 + 0)) =
    ∑ oh ∈ Finset.range 2, ∑ ow ∈ Finset.range 1,
      (if windowContains (PoolCfg.mk 1 2 1 1 0 0 true none) 2 1 oh ow
          1 0 then
        (fun _ => (1 : ℚ)) (0 * (2 * 1) + oh * 1 + ow) /
          (divideFactor (PoolCfg.mk 1 2 1 1 0 0 true none) 2 1 oh ow : ℚ)
       else 0) :=
  ⟨⟨by decide, by decide, by decide⟩,
    avg_pool_backward_scatter_sum 1 2 1 2 1
      (PoolCfg.mk 1 2 1 1 0 0 true none) (fun _ => 1) 0 1 0 (by decide)
      (by decide) (by decide)⟩

end Ipex
